import Mathlib

/-!
Shallow embedding of the SmartCache offline-synchronization engine.

Source files:
* `dist/smart-cache.js` — the client script: IndexedDB helpers, the toast
  notification queue (`notifyUser` / `showNextMessage`), the service-worker
  message listener, and a client-side `syncOfflineRequests` replay loop.
* `sw.js` (reproduced in the repository README) — the service worker:
  the same IndexedDB helpers, cache helpers, the `fetch` event handler
  (cache-first GET/HEAD path and the offline queueing path for other
  methods), the message listener, `syncStoredPosts` (queue replay) and
  `syncOfflineRequests` (replay followed by cache refresh).

The IndexedDB object store is modelled as a list of records kept in
ascending key order together with the next auto-increment key; the Cache
API store is an association list keyed by request method and URL.  Network
outcomes are supplied by oracles (`FetchResult`-valued functions), since
the network is an external collaborator.  Storage-level transaction
failures (the `onerror` / rejection paths of the IndexedDB helpers) are
outside the pure store model; the one storage-failure path a claim talks
about (snapshot/enqueue failure in the fetch handler) is modelled by an
explicit `SaveOutcome` oracle.
-/

namespace SmartCache

/-- `MAX_RETRIES` from both source files. -/
def MAX_RETRIES : Nat := 5

/-- `MAX_AGE` from both source files: 7 days in milliseconds. -/
def MAX_AGE : Nat := 1000 * 60 * 60 * 24 * 7

/-- The record stored by the fetch handler when a mutating request fails
(`requestData` in the non-GET/HEAD branch of the `fetch` handler): url,
method, serialized headers, body text, content type, `Date.now()`
timestamp and an initial retry count. -/
structure ReqData where
  url : String
  method : String
  headers : List (String × String)
  body : String
  contentType : String
  timestamp : Nat
  retryCount : Nat
deriving DecidableEq

/-- A record of the `offline-requests` object store: `ReqData` plus the
auto-increment key `id` assigned by the store. -/
structure PendingRequest where
  id : Nat
  url : String
  method : String
  headers : List (String × String)
  body : String
  contentType : String
  timestamp : Nat
  retryCount : Nat
deriving DecidableEq

/-- The IndexedDB object store (keyPath `id`, autoIncrement): the records
in ascending key order, plus the next auto-increment key. -/
structure Store where
  nextId : Nat
  entries : List PendingRequest
deriving DecidableEq

def emptyStore : Store := { nextId := 0, entries := [] }

/-- The record built by `store.add(requestData)`: the data with the
auto-increment key attached. -/
def mkEntry (id : Nat) (d : ReqData) : PendingRequest :=
  { id := id, url := d.url, method := d.method, headers := d.headers,
    body := d.body, contentType := d.contentType,
    timestamp := d.timestamp, retryCount := d.retryCount }

/-- `saveRequest(requestData)`: `store.add` assigns the next
auto-increment key and appends the record. -/
def saveRequest (s : Store) (d : ReqData) : Store :=
  { nextId := s.nextId + 1, entries := s.entries ++ [mkEntry s.nextId d] }

/-- `getAllRequests()`: `store.getAll()` returns all records in ascending
key order, which is the order maintained by `Store.entries`. -/
def getAllRequests (s : Store) : List PendingRequest :=
  s.entries

/-- `deleteRequest(id)`: `store.delete(id)` removes the record with the
given key (if any). -/
def deleteRequest (s : Store) (id : Nat) : Store :=
  { s with entries := s.entries.filter (fun e => e.id != id) }

/-- `updateRequestRetryCount(id, retryCount)`: `store.get(id)`; if a
record is found, its `retryCount` field is set and the record is written
back with `store.put` (same key, so the record is overwritten in place);
if no record is found the promise resolves with the store untouched. -/
def updateRequestRetryCount (s : Store) (id retryCount : Nat) : Store :=
  match s.entries.find? (fun e => e.id == id) with
  | some _ =>
      { s with entries :=
          s.entries.map (fun e =>
            if e.id = id then { e with retryCount := retryCount } else e) }
  | none => s

/-- Store well-formedness: record keys are distinct and below the next
auto-increment key.  Both hold for every store reachable through the
helpers above. -/
def wfStore (s : Store) : Prop :=
  (s.entries.map (fun e => e.id)).Nodup ∧ ∀ e ∈ s.entries, e.id < s.nextId

instance : DecidablePred wfStore := fun s => by
  unfold wfStore; infer_instance

/-- The queue invariant named by the data-model section of the design:
the retry count of a pending entry never exceeds `MAX_RETRIES`. -/
def retryBounded (s : Store) : Prop :=
  ∀ e ∈ s.entries, e.retryCount ≤ MAX_RETRIES

instance : DecidablePred retryBounded := fun s => by
  unfold retryBounded; infer_instance

/-- An HTTP response: status, status text and body text. -/
structure Response where
  status : Nat
  statusText : String
  body : String
deriving DecidableEq

/-- `response.ok` per the Fetch standard: status in the range 200-299. -/
def respOk (status : Nat) : Bool :=
  200 ≤ status && status ≤ 299

/-- Outcome of one `fetch` call: the promise resolves with a response
(of any status), or rejects with a network error. -/
inductive FetchResult
  | resp (r : Response)
  | netError
deriving DecidableEq

/-- Whether a fetch outcome is a response satisfying `response.ok`. -/
def fetchOk : FetchResult → Bool
  | .resp r => respOk r.status
  | .netError => false

/-- Identity of a cached entry: the Cache API stores responses keyed by
the request, of which the fetch handler uses method and URL. -/
structure CacheKey where
  method : String
  url : String
deriving DecidableEq

/-- The Cache API store under `CACHE_NAME`, as an association list. -/
abbrev CacheStore := List (CacheKey × Response)

/-- `cachePut(request, response)`: `cache.put` overwrites the entry for
the request key, or adds a new one. -/
def cachePut (c : CacheStore) (k : CacheKey) (r : Response) : CacheStore :=
  if c.any (fun p => p.1 == k)
  then c.map (fun p => if p.1 = k then (k, r) else p)
  else c ++ [(k, r)]

/-- `cacheMatch(request)`: `cache.match` returns the stored response for
the request key, if any. -/
def cacheMatch (c : CacheStore) (k : CacheKey) : Option Response :=
  (c.find? (fun p => p.1 == k)).map (fun p => p.2)

/-- `cache.keys()` filtered to GET/HEAD requests, as in the refresh phase
of the service worker `syncOfflineRequests`. -/
def cacheGetKeys (c : CacheStore) : List CacheKey :=
  (c.map (fun p => p.1)).filter (fun k => k.method == "GET" || k.method == "HEAD")

/-- An intercepted outbound request as seen by the `fetch` event handler. -/
structure RequestInfo where
  url : String
  method : String
  headers : List (String × String)
  body : String
deriving DecidableEq

/-- `request.headers.get(name)`: header lookup.  Platform `Headers` are
case-insensitive, so names are compared lower-cased. -/
def headerGet (hs : List (String × String)) (name : String) : Option String :=
  (hs.find? (fun p => p.1.toLower == name.toLower)).map (fun p => p.2)

/-- The key under which the fetch handler caches a request. -/
def reqKey (req : RequestInfo) : CacheKey :=
  { method := req.method, url := req.url }

/-- The postMessage payloads the service worker broadcasts with
`sendMessageToClients`. -/
inductive SwMsg
  | offlineRequestSynced (url method : String)
  | offlineRequestSaved (url method : String)
  | offlineUsage
deriving DecidableEq

/-- The synthesized 503 response of the GET/HEAD handler, built by the
source with status 503, status text Service Unavailable and the body
text below. -/
def offline503 : Response :=
  { status := 503, statusText := "Service Unavailable",
    body := "Offline and no cached data" }

/-- The synthesized 202 response of the queueing path, whose JSON body
carries the machine-readable `offline: true` marker. -/
def queued202 : Response :=
  { status := 202, statusText := "",
    body := "\x7b\"offline\":true,\"message\":\"Request saved for later sync\"\x7d" }

/-- The synthesized 500 response returned when snapshotting or saving the
failed request itself fails. -/
def saveFailed500 : Response :=
  { status := 500, statusText := "",
    body := "\x7b\"error\":\"Failed to save request offline\"\x7d" }

/-- Result of one run of the fetch handler on the GET/HEAD path. -/
structure ReadResult where
  response : Response
  cache : CacheStore
  msgs : List SwMsg
deriving DecidableEq

/-- The GET/HEAD branch of the `fetch` event handler: on a resolved fetch
the response is written to the cache (no status condition appears in the
source) and `OFFLINE_REQUEST_SYNCED` is broadcast; on a rejected fetch a
cached response is served with `OFFLINE_USAGE`, and failing that the
synthesized 503 is returned. -/
def handleReadRequest (req : RequestInfo) (outcome : FetchResult)
    (cache : CacheStore) : ReadResult :=
  match outcome with
  | .resp r =>
      { response := r
        cache := cachePut cache (reqKey req) r
        msgs := [.offlineRequestSynced req.url req.method] }
  | .netError =>
      match cacheMatch cache (reqKey req) with
      | some cached => { response := cached, cache := cache, msgs := [.offlineUsage] }
      | none => { response := offline503, cache := cache, msgs := [] }

/-- Whether reading the request body, serializing the headers and
`saveRequest` all succeed, or some step of the catch-block snapshot
throws/rejects (modelling the inner try/catch of the queueing path). -/
inductive SaveOutcome
  | ok
  | storageError
deriving DecidableEq

/-- The snapshot `requestData` built by the queueing path of the fetch
handler. -/
def buildSnapshot (req : RequestInfo) (now : Nat) : ReqData :=
  { url := req.url
    method := req.method
    headers := req.headers
    body := req.body
    contentType := (headerGet req.headers "Content-Type").getD ""
    timestamp := now
    retryCount := 0 }

/-- Result of one run of the fetch handler on the non-GET/HEAD path. -/
structure WriteResult where
  response : Response
  store : Store
  msgs : List SwMsg
deriving DecidableEq

/-- The non-GET/HEAD branch of the `fetch` event handler: a resolved
fetch is returned untouched with no queue interaction; on a rejected
fetch the snapshot is saved and `OFFLINE_REQUEST_SAVED` broadcast and the
synthesized 202 returned, unless the snapshot/save itself fails, in which
case the synthesized 500 is returned and the store is untouched (the
aborted transaction writes nothing). -/
def handleMutatingRequest (req : RequestInfo) (outcome : FetchResult)
    (saveOut : SaveOutcome) (now : Nat) (s : Store) : WriteResult :=
  match outcome with
  | .resp r => { response := r, store := s, msgs := [] }
  | .netError =>
      match saveOut with
      | .ok =>
          { response := queued202
            store := saveRequest s (buildSnapshot req now)
            msgs := [.offlineRequestSaved req.url req.method] }
      | .storageError =>
          { response := saveFailed500, store := s, msgs := [] }

/-- The message types the service worker `message` listener receives
(`event.data.type`); `unknown` stands for any other string tag, and the
listener first returns on a null `event.data`. -/
inductive SwIncoming
  | syncRequestsMsg
  | unknown
deriving DecidableEq

/-- Whether the service worker `message` listener invokes
`syncOfflineRequests` for a given incoming message.  The listener
consults nothing but the message type: the source keeps no pass-active
flag and has no admission gate. -/
def swMessageStartsPass : Option SwIncoming → Bool
  | none => false
  | some .syncRequestsMsg => true
  | some .unknown => false

/-- Delivering one message to the service worker `message` listener,
tracking how many `syncOfflineRequests` passes are in flight: the async
pass invoked by the listener runs alongside any already-running pass. -/
def swOnMessage (activePasses : Nat) (m : Option SwIncoming) : Nat :=
  if swMessageStartsPass m then activePasses + 1 else activePasses

/-- The message types the client page listener receives from the service
worker. -/
inductive ClientIncoming
  | offlineRequestSaved
  | offlineUsage
  | offlineRequestSynced
  | syncRequestsMsg
  | unknown
deriving DecidableEq

/-- Whether the client `message` listener invokes its
`syncOfflineRequests` for a given incoming message; like the service
worker listener it consults only the message type. -/
def clientMessageStartsPass : Option ClientIncoming → Bool
  | some .syncRequestsMsg => true
  | _ => false

/-- Delivering one message to the client `message` listener, tracking
in-flight replay passes. -/
def clientOnMessage (activePasses : Nat) (m : Option ClientIncoming) : Nat :=
  if clientMessageStartsPass m then activePasses + 1 else activePasses

/-- Accumulated result of a replay loop: the store after the loop, the
network calls issued (method and URL, in issue order) and the
notifications emitted (in emit order). -/
structure PassResult (E : Type) where
  store : Store
  calls : List (String × String)
  events : List E
deriving DecidableEq

/-- Loop body of `syncStoredPosts` in the service worker, iterating over
the snapshot returned by `getAllRequests()` while the store evolves:
entries older than `MAX_AGE` or at the retry limit are deleted with no
fetch; otherwise the entry is re-fetched (the network outcome for the
entry with key `id` given by the oracle `net`); an ok response deletes
the entry and broadcasts `OFFLINE_REQUEST_SYNCED`; a non-ok response or a
network error bumps the retry count and the loop moves on (the service
worker emits nothing on failure). -/
def syncStoredPostsLoop (net : Nat → FetchResult) (now : Nat) :
    List PendingRequest → Store → PassResult SwMsg
  | [], s => { store := s, calls := [], events := [] }
  | r :: rest, s =>
    if MAX_AGE < now - r.timestamp then
      syncStoredPostsLoop net now rest (deleteRequest s r.id)
    else if MAX_RETRIES ≤ r.retryCount then
      syncStoredPostsLoop net now rest (deleteRequest s r.id)
    else
      match net r.id with
      | .resp resp =>
        if respOk resp.status then
          let res := syncStoredPostsLoop net now rest (deleteRequest s r.id)
          { store := res.store
            calls := (r.method, r.url) :: res.calls
            events := .offlineRequestSynced r.url r.method :: res.events }
        else
          let res := syncStoredPostsLoop net now rest
            (updateRequestRetryCount s r.id (r.retryCount + 1))
          { store := res.store
            calls := (r.method, r.url) :: res.calls
            events := res.events }
      | .netError =>
          let res := syncStoredPostsLoop net now rest
            (updateRequestRetryCount s r.id (r.retryCount + 1))
          { store := res.store
            calls := (r.method, r.url) :: res.calls
            events := res.events }

/-- `syncStoredPosts()` in the service worker: fetch the snapshot with
`getAllRequests()` and run the loop over it. -/
def syncStoredPosts (net : Nat → FetchResult) (now : Nat) (s : Store) :
    PassResult SwMsg :=
  syncStoredPostsLoop net now (getAllRequests s) s

/-- The `notifyUser` invocations of the client-side replay loop in
`dist/smart-cache.js`: a success toast or an error toast, recorded with
the method and URL interpolated into the message. -/
inductive ClientNote
  | syncSuccess (method url : String)
  | syncError (method url : String)
deriving DecidableEq

/-- Loop body of `syncOfflineRequests` in `dist/smart-cache.js`: an entry
at the retry limit or older than `MAX_AGE` is deleted with no fetch and
no toast; otherwise it is re-fetched; an ok response deletes the entry
with a success toast; a non-ok response or network error bumps the retry
count, shows an error toast and the loop moves on. -/
def clientSyncLoop (net : Nat → FetchResult) (now : Nat) :
    List PendingRequest → Store → PassResult ClientNote
  | [], s => { store := s, calls := [], events := [] }
  | r :: rest, s =>
    if MAX_RETRIES ≤ r.retryCount ∨ MAX_AGE < now - r.timestamp then
      clientSyncLoop net now rest (deleteRequest s r.id)
    else
      match net r.id with
      | .resp resp =>
        if respOk resp.status then
          let res := clientSyncLoop net now rest (deleteRequest s r.id)
          { store := res.store
            calls := (r.method, r.url) :: res.calls
            events := .syncSuccess r.method r.url :: res.events }
        else
          let res := clientSyncLoop net now rest
            (updateRequestRetryCount s r.id (r.retryCount + 1))
          { store := res.store
            calls := (r.method, r.url) :: res.calls
            events := .syncError r.method r.url :: res.events }
      | .netError =>
          let res := clientSyncLoop net now rest
            (updateRequestRetryCount s r.id (r.retryCount + 1))
          { store := res.store
            calls := (r.method, r.url) :: res.calls
            events := .syncError r.method r.url :: res.events }

/-- `syncOfflineRequests()` in `dist/smart-cache.js` (the client-side
replay pass). -/
def clientSyncOfflineRequests (net : Nat → FetchResult) (now : Nat)
    (s : Store) : PassResult ClientNote :=
  clientSyncLoop net now (getAllRequests s) s

/-- The refresh fan-out of the service worker `syncOfflineRequests`,
processed here entry by entry (the source fans out with `Promise.all`;
no claim depends on the interleaving): each cached GET/HEAD request is
re-fetched; a resolved fetch overwrites the cached entry (no status
condition appears in the source) and broadcasts
`OFFLINE_REQUEST_SYNCED`; on a network error the existing entry, if any,
is answered with `OFFLINE_USAGE`. -/
def refreshCacheLoop (net : CacheKey → FetchResult) :
    List CacheKey → CacheStore → CacheStore × List SwMsg
  | [], c => (c, [])
  | k :: rest, c =>
    match net k with
    | .resp r =>
        let res := refreshCacheLoop net rest (cachePut c k r)
        (res.1, .offlineRequestSynced k.url k.method :: res.2)
    | .netError =>
        match cacheMatch c k with
        | some _ =>
            let res := refreshCacheLoop net rest c
            (res.1, .offlineUsage :: res.2)
        | none => refreshCacheLoop net rest c

/-- The refresh phase run over all cached GET/HEAD keys. -/
def refreshCache (net : CacheKey → FetchResult) (c : CacheStore) :
    CacheStore × List SwMsg :=
  refreshCacheLoop net (cacheGetKeys c) c

/-- An entry of the client `messageQueue`: the `message` text and the
`type` tag passed to `notifyUser`. -/
structure ToastMsg where
  message : String
  kind : String
deriving DecidableEq

/-- State of the toast machinery in `dist/smart-cache.js`:
`messageQueue` and `isShowingMessage` are the module-level variables;
`boxes` are the toast elements currently present in the notification
container (appended by `showNextMessage`, removed by its timeout chain);
`displayLog` records, in order, every toast whose display has begun. -/
structure DispatcherState where
  messageQueue : List ToastMsg
  isShowingMessage : Bool
  boxes : List ToastMsg
  displayLog : List ToastMsg
deriving DecidableEq

def initDispatcher : DispatcherState :=
  { messageQueue := [], isShowingMessage := false, boxes := [], displayLog := [] }

/-- `showNextMessage()`: with an empty queue it clears
`isShowingMessage` and returns; otherwise it sets the flag, shifts the
first queued message and appends its toast element to the container
(beginning its display). -/
def showNextMessage (st : DispatcherState) : DispatcherState :=
  match st.messageQueue with
  | [] => { st with isShowingMessage := false }
  | m :: rest =>
      { st with
        isShowingMessage := true
        messageQueue := rest
        boxes := st.boxes ++ [m]
        displayLog := st.displayLog ++ [m] }

/-- `notifyUser(message, type)`: drops the message when notifications
are disabled; otherwise pushes it onto `messageQueue` and, if nothing is
currently showing, starts `showNextMessage`. -/
def notifyUser (showNotifications : Bool) (st : DispatcherState)
    (m : ToastMsg) : DispatcherState :=
  if !showNotifications then st
  else
    let st := { st with messageQueue := st.messageQueue ++ [m] }
    if st.isShowingMessage then st else showNextMessage st

/-- Completion of the timeout chain of `showNextMessage` for the toast
on screen (3000 ms display plus 500 ms fade): the element is removed
from the container, `isShowingMessage` is cleared, and
`showNextMessage` continues with the queue.  With no toast on screen no
timeout is pending and nothing happens. -/
def toastTimerDone (st : DispatcherState) : DispatcherState :=
  match st.boxes with
  | [] => st
  | _ :: rest =>
      showNextMessage { st with boxes := rest, isShowingMessage := false }

/-- An externally visible dispatcher step: a `notifyUser` call or the
elapse of the current toast display duration. -/
inductive DispatchAction
  | publish (m : ToastMsg)
  | timerDone
deriving DecidableEq

/-- One dispatcher step with notifications enabled. -/
def dispatchStep (st : DispatcherState) : DispatchAction → DispatcherState
  | .publish m => notifyUser true st m
  | .timerDone => toastTimerDone st

/-- Run a sequence of dispatcher steps from a state. -/
def runDispatchFrom (st : DispatcherState) (t : List DispatchAction) :
    DispatcherState :=
  t.foldl dispatchStep st

/-- Run a sequence of dispatcher steps from the initial state. -/
def runDispatch (t : List DispatchAction) : DispatcherState :=
  runDispatchFrom initDispatcher t

/-- The messages published along a step sequence, in publish order. -/
def publishedOf (t : List DispatchAction) : List ToastMsg :=
  t.filterMap (fun a => match a with | .publish m => some m | .timerDone => none)

/-- Apply `n` display-duration elapses. -/
def applyTimers : Nat → DispatcherState → DispatcherState
  | 0, st => st
  | n + 1, st => applyTimers n (toastTimerDone st)

/-- An entry that passes the freshness and retry checks of the replay
loops (such an entry is re-fetched). -/
def aliveB (now : Nat) (r : PendingRequest) : Bool :=
  decide (now - r.timestamp ≤ MAX_AGE) && decide (r.retryCount < MAX_RETRIES)

/-- Decision of the service worker replay loop for one entry: `none`
when the loop deletes it (expired, retry-limited, or synced), otherwise
the retry count it writes back. -/
def swReplayDecide (net : Nat → FetchResult) (now : Nat)
    (r : PendingRequest) : Option Nat :=
  if MAX_AGE < now - r.timestamp then none
  else if MAX_RETRIES ≤ r.retryCount then none
  else match net r.id with
    | .resp resp => if respOk resp.status then none else some (r.retryCount + 1)
    | .netError => some (r.retryCount + 1)

/-- Decision of the client replay loop for one entry. -/
def clientReplayDecide (net : Nat → FetchResult) (now : Nat)
    (r : PendingRequest) : Option Nat :=
  if MAX_RETRIES ≤ r.retryCount ∨ MAX_AGE < now - r.timestamp then none
  else match net r.id with
    | .resp resp => if respOk resp.status then none else some (r.retryCount + 1)
    | .netError => some (r.retryCount + 1)

/-- The store effect of one replay-loop iteration. -/
def stepRetry (dec : PendingRequest → Option Nat) (s : Store)
    (r : PendingRequest) : Store :=
  match dec r with
  | none => deleteRequest s r.id
  | some n => updateRequestRetryCount s r.id n

/-- What one loop iteration leaves of an entry in the store. -/
def replayResidue (dec : PendingRequest → Option Nat) (r : PendingRequest) :
    Option PendingRequest :=
  (dec r).map (fun n => { r with retryCount := n })

theorem clientReplayDecide_eq_swReplayDecide (net : Nat → FetchResult)
    (now : Nat) (r : PendingRequest) :
    clientReplayDecide net now r = swReplayDecide net now r := by
  unfold clientReplayDecide swReplayDecide
  by_cases h1 : MAX_AGE < now - r.timestamp
  · simp [h1]
  · by_cases h2 : MAX_RETRIES ≤ r.retryCount <;> simp [h1, h2]

theorem swReplayDecide_of_aliveB (net : Nat → FetchResult) (now : Nat)
    (r : PendingRequest) :
    swReplayDecide net now r
      = if aliveB now r
        then (if fetchOk (net r.id) then none else some (r.retryCount + 1))
        else none := by
  unfold swReplayDecide aliveB fetchOk
  by_cases h1 : MAX_AGE < now - r.timestamp
  · have : ¬ now - r.timestamp ≤ MAX_AGE := by omega
    simp [h1, this]
  · by_cases h2 : MAX_RETRIES ≤ r.retryCount
    · have : ¬ r.retryCount < MAX_RETRIES := by omega
      simp [h1, h2, this]
    · have ha : now - r.timestamp ≤ MAX_AGE := by omega
      have hb : r.retryCount < MAX_RETRIES := by omega
      cases hn : net r.id with
      | resp resp => simp [h1, h2, ha, hb, hn]
      | netError => simp [h1, h2, ha, hb, hn]

theorem swLoop_store (net : Nat → FetchResult) (now : Nat) :
    ∀ (l : List PendingRequest) (s : Store),
      (syncStoredPostsLoop net now l s).store
        = l.foldl (stepRetry (swReplayDecide net now)) s := by
  intro l
  induction l with
  | nil => intro s; rfl
  | cons r rest ih =>
    intro s
    by_cases h1 : MAX_AGE < now - r.timestamp
    · simp [syncStoredPostsLoop, h1, stepRetry, swReplayDecide, ih]
    · by_cases h2 : MAX_RETRIES ≤ r.retryCount
      · simp [syncStoredPostsLoop, h1, h2, stepRetry, swReplayDecide, ih]
      · cases hn : net r.id with
        | resp resp =>
          by_cases h3 : respOk resp.status
          · simp [syncStoredPostsLoop, h1, h2, hn, h3, stepRetry, swReplayDecide, ih]
          · simp [syncStoredPostsLoop, h1, h2, hn, h3, stepRetry, swReplayDecide, ih]
        | netError =>
          simp [syncStoredPostsLoop, h1, h2, hn, stepRetry, swReplayDecide, ih]

theorem clientLoop_store (net : Nat → FetchResult) (now : Nat) :
    ∀ (l : List PendingRequest) (s : Store),
      (clientSyncLoop net now l s).store
        = l.foldl (stepRetry (clientReplayDecide net now)) s := by
  intro l
  induction l with
  | nil => intro s; rfl
  | cons r rest ih =>
    intro s
    by_cases h1 : MAX_RETRIES ≤ r.retryCount ∨ MAX_AGE < now - r.timestamp
    · simp [clientSyncLoop, h1, stepRetry, clientReplayDecide, ih]
    · cases hn : net r.id with
      | resp resp =>
        by_cases h3 : respOk resp.status
        · simp [clientSyncLoop, h1, hn, h3, stepRetry, clientReplayDecide, ih]
        · simp [clientSyncLoop, h1, hn, h3, stepRetry, clientReplayDecide, ih]
      | netError =>
        simp [clientSyncLoop, h1, hn, stepRetry, clientReplayDecide, ih]

theorem swLoop_calls (net : Nat → FetchResult) (now : Nat) :
    ∀ (l : List PendingRequest) (s : Store),
      (syncStoredPostsLoop net now l s).calls
        = (l.filter (aliveB now)).map (fun r => (r.method, r.url)) := by
  intro l
  induction l with
  | nil => intro s; rfl
  | cons r rest ih =>
    intro s
    by_cases h1 : MAX_AGE < now - r.timestamp
    · have hA : aliveB now r = false := by
        simp only [aliveB, Bool.and_eq_false_iff, decide_eq_false_iff_not]
        left; omega
      simp [syncStoredPostsLoop, h1, List.filter_cons, hA, ih]
    · by_cases h2 : MAX_RETRIES ≤ r.retryCount
      · have hA : aliveB now r = false := by
          simp only [aliveB, Bool.and_eq_false_iff, decide_eq_false_iff_not]
          right; omega
        simp [syncStoredPostsLoop, h1, h2, List.filter_cons, hA, ih]
      · have hA : aliveB now r = true := by
          simp only [aliveB, Bool.and_eq_true, decide_eq_true_eq]
          omega
        cases hn : net r.id with
        | resp resp =>
          by_cases h3 : respOk resp.status
          · simp [syncStoredPostsLoop, h1, h2, hn, h3, List.filter_cons, hA, ih]
          · simp [syncStoredPostsLoop, h1, h2, hn, h3, List.filter_cons, hA, ih]
        | netError =>
          simp [syncStoredPostsLoop, h1, h2, hn, List.filter_cons, hA, ih]

theorem clientLoop_calls (net : Nat → FetchResult) (now : Nat) :
    ∀ (l : List PendingRequest) (s : Store),
      (clientSyncLoop net now l s).calls
        = (l.filter (aliveB now)).map (fun r => (r.method, r.url)) := by
  intro l
  induction l with
  | nil => intro s; rfl
  | cons r rest ih =>
    intro s
    by_cases h1 : MAX_RETRIES ≤ r.retryCount ∨ MAX_AGE < now - r.timestamp
    · have hA : aliveB now r = false := by
        simp only [aliveB, Bool.and_eq_false_iff, decide_eq_false_iff_not]
        omega
      simp [clientSyncLoop, h1, List.filter_cons, hA, ih]
    · have hA : aliveB now r = true := by
        simp only [aliveB, Bool.and_eq_true, decide_eq_true_eq]
        omega
      cases hn : net r.id with
      | resp resp =>
        by_cases h3 : respOk resp.status
        · simp [clientSyncLoop, h1, hn, h3, List.filter_cons, hA, ih]
        · simp [clientSyncLoop, h1, hn, h3, List.filter_cons, hA, ih]
      | netError =>
        simp [clientSyncLoop, h1, hn, List.filter_cons, hA, ih]

theorem swLoop_events (net : Nat → FetchResult) (now : Nat) :
    ∀ (l : List PendingRequest) (s : Store),
      (syncStoredPostsLoop net now l s).events
        = (l.filter (fun r => aliveB now r && fetchOk (net r.id))).map
            (fun r => SwMsg.offlineRequestSynced r.url r.method) := by
  intro l
  induction l with
  | nil => intro s; rfl
  | cons r rest ih =>
    intro s
    by_cases h1 : MAX_AGE < now - r.timestamp
    · have hA : aliveB now r = false := by
        simp only [aliveB, Bool.and_eq_false_iff, decide_eq_false_iff_not]
        left; omega
      simp [syncStoredPostsLoop, h1, List.filter_cons, hA, ih]
    · by_cases h2 : MAX_RETRIES ≤ r.retryCount
      · have hA : aliveB now r = false := by
          simp only [aliveB, Bool.and_eq_false_iff, decide_eq_false_iff_not]
          right; omega
        simp [syncStoredPostsLoop, h1, h2, List.filter_cons, hA, ih]
      · have hA : aliveB now r = true := by
          simp only [aliveB, Bool.and_eq_true, decide_eq_true_eq]
          omega
        cases hn : net r.id with
        | resp resp =>
          by_cases h3 : respOk resp.status
          · simp [syncStoredPostsLoop, fetchOk, h1, h2, hn, h3,
              List.filter_cons, hA, ih]
          · simp [syncStoredPostsLoop, fetchOk, h1, h2, hn, h3,
              List.filter_cons, hA, ih]
        | netError =>
          simp [syncStoredPostsLoop, fetchOk, h1, h2, hn, List.filter_cons,
            hA, ih]

theorem clientLoop_events (net : Nat → FetchResult) (now : Nat) :
    ∀ (l : List PendingRequest) (s : Store),
      (clientSyncLoop net now l s).events
        = (l.filter (aliveB now)).map
            (fun r => if fetchOk (net r.id)
                      then ClientNote.syncSuccess r.method r.url
                      else ClientNote.syncError r.method r.url) := by
  intro l
  induction l with
  | nil => intro s; rfl
  | cons r rest ih =>
    intro s
    by_cases h1 : MAX_RETRIES ≤ r.retryCount ∨ MAX_AGE < now - r.timestamp
    · have hA : aliveB now r = false := by
        simp only [aliveB, Bool.and_eq_false_iff, decide_eq_false_iff_not]
        omega
      simp [clientSyncLoop, h1, List.filter_cons, hA, ih]
    · have hA : aliveB now r = true := by
        simp only [aliveB, Bool.and_eq_true, decide_eq_true_eq]
        omega
      cases hn : net r.id with
      | resp resp =>
        by_cases h3 : respOk resp.status
        · simp [clientSyncLoop, fetchOk, h1, hn, h3, List.filter_cons, hA, ih]
        · simp [clientSyncLoop, fetchOk, h1, hn, h3, List.filter_cons, hA, ih]
      | netError =>
        simp [clientSyncLoop, fetchOk, h1, hn, List.filter_cons, hA, ih]

theorem deleteRequest_shape (nid : Nat) (pre rest : List PendingRequest)
    (r : PendingRequest)
    (h1 : ∀ e ∈ pre, e.id ≠ r.id) (h2 : ∀ e ∈ rest, e.id ≠ r.id) :
    deleteRequest ⟨nid, pre ++ r :: rest⟩ r.id = ⟨nid, pre ++ rest⟩ := by
  unfold deleteRequest
  congr 1
  simp only [List.filter_append, List.filter_cons]
  have hpre : pre.filter (fun e => e.id != r.id) = pre :=
    List.filter_eq_self.mpr (fun e he => by simpa using h1 e he)
  have hrest : rest.filter (fun e => e.id != r.id) = rest :=
    List.filter_eq_self.mpr (fun e he => by simpa using h2 e he)
  simp [hpre, hrest]

theorem find?_id_mid (r : PendingRequest) (rest : List PendingRequest) :
    ∀ (pre : List PendingRequest), (∀ e ∈ pre, e.id ≠ r.id) →
      (pre ++ r :: rest).find? (fun e => e.id == r.id) = some r := by
  intro pre
  induction pre with
  | nil => intro _; simp
  | cons p ps ih =>
      intro h
      have hp : (p.id == r.id) = false := by
        simpa using h p (by simp)
      rw [List.cons_append, List.find?_cons_of_neg _ (by simp [hp])]
      exact ih (fun e he => h e (by simp [he]))

theorem map_setRetry_ne (rid n : Nat) :
    ∀ (l : List PendingRequest), (∀ e ∈ l, e.id ≠ rid) →
      l.map (fun e => if e.id = rid then { e with retryCount := n } else e) = l := by
  intro l
  induction l with
  | nil => intro _; rfl
  | cons p ps ih =>
      intro h
      have hp : ¬ p.id = rid := h p (by simp)
      simp only [List.map_cons, if_neg hp]
      rw [ih (fun e he => h e (by simp [he]))]

theorem updateRequestRetryCount_shape (nid : Nat)
    (pre rest : List PendingRequest) (r : PendingRequest) (n : Nat)
    (h1 : ∀ e ∈ pre, e.id ≠ r.id) (h2 : ∀ e ∈ rest, e.id ≠ r.id) :
    updateRequestRetryCount ⟨nid, pre ++ r :: rest⟩ r.id n
      = ⟨nid, pre ++ { r with retryCount := n } :: rest⟩ := by
  unfold updateRequestRetryCount
  rw [find?_id_mid r rest pre h1]
  rw [List.map_append, List.map_cons, if_pos rfl,
    map_setRetry_ne r.id n pre h1, map_setRetry_ne r.id n rest h2]

theorem nodup_mid_ne (pre rest : List PendingRequest) (r : PendingRequest)
    (h : ((pre ++ r :: rest).map (fun e => e.id)).Nodup) :
    (∀ e ∈ pre, e.id ≠ r.id) ∧ (∀ e ∈ rest, e.id ≠ r.id)
      ∧ ((pre ++ rest).map (fun e => e.id)).Nodup := by
  rw [List.map_append, List.map_cons, List.nodup_middle, List.nodup_cons] at h
  obtain ⟨hmem, hnd⟩ := h
  rw [List.mem_append] at hmem
  push_neg at hmem
  refine ⟨?_, ?_, by rw [List.map_append]; exact hnd⟩
  · intro e he heq
    exact hmem.1 (by rw [← heq]; exact List.mem_map_of_mem _ he)
  · intro e he heq
    exact hmem.2 (by rw [← heq]; exact List.mem_map_of_mem _ he)

theorem foldl_stepRetry (dec : PendingRequest → Option Nat) :
    ∀ (l pre : List PendingRequest) (nid : Nat),
      ((pre ++ l).map (fun e => e.id)).Nodup →
      l.foldl (stepRetry dec) ⟨nid, pre ++ l⟩
        = ⟨nid, pre ++ l.filterMap (replayResidue dec)⟩ := by
  intro l
  induction l with
  | nil => intro pre nid _; simp
  | cons r rest ih =>
    intro pre nid hnd
    have hsplit : ((pre ++ r :: rest).map (fun e => e.id)).Nodup := hnd
    obtain ⟨h1, h2, _⟩ := nodup_mid_ne pre rest r hsplit
    rw [List.foldl_cons]
    cases hdec : dec r with
    | none =>
        have hstep : stepRetry dec ⟨nid, pre ++ r :: rest⟩ r = ⟨nid, pre ++ rest⟩ := by
          unfold stepRetry
          rw [hdec]
          exact deleteRequest_shape nid pre rest r h1 h2
        rw [hstep]
        have hnd' : ((pre ++ rest).map (fun e => e.id)).Nodup :=
          (nodup_mid_ne pre rest r hsplit).2.2
        rw [ih pre nid hnd']
        simp [List.filterMap_cons, replayResidue, hdec]
    | some n =>
        have hstep : stepRetry dec ⟨nid, pre ++ r :: rest⟩ r
            = ⟨nid, pre ++ { r with retryCount := n } :: rest⟩ := by
          unfold stepRetry
          rw [hdec]
          exact updateRequestRetryCount_shape nid pre rest r n h1 h2
        rw [hstep]
        have hids : ((pre ++ [({ r with retryCount := n } : PendingRequest)])
              ++ rest).map (fun e => PendingRequest.id e)
            = (pre ++ r :: rest).map (fun e => PendingRequest.id e) := by
          rw [List.append_assoc, List.singleton_append]
          simp only [List.map_append, List.map_cons]
        have hnd' : (((pre ++ [({ r with retryCount := n } : PendingRequest)])
            ++ rest).map (fun e => PendingRequest.id e)).Nodup := by
          rw [hids]; exact hsplit
        have hrec := ih (pre ++ [({ r with retryCount := n } : PendingRequest)])
          nid hnd'
        simp only [List.append_assoc, List.singleton_append] at hrec
        rw [hrec]
        simp [List.filterMap_cons, replayResidue, hdec]

theorem syncStoredPosts_store (net : Nat → FetchResult) (now : Nat)
    (s : Store) (hwf : wfStore s) :
    (syncStoredPosts net now s).store
      = ⟨s.nextId, s.entries.filterMap (replayResidue (swReplayDecide net now))⟩ := by
  obtain ⟨nid, entries⟩ := s
  have hnd : ((([] : List PendingRequest) ++ entries).map (fun e => e.id)).Nodup := by
    simpa using hwf.1
  have := foldl_stepRetry (swReplayDecide net now) entries [] nid hnd
  simp only [List.nil_append] at this
  unfold syncStoredPosts getAllRequests
  rw [swLoop_store, this]

/-- Invariant tying a dispatcher state to the list of messages published
so far with notifications enabled: the display log followed by the
pending queue is exactly the publish sequence; at most one toast element
is on screen; `isShowingMessage` mirrors the container; and an idle
dispatcher has an empty queue. -/
def DispatchInv (st : DispatcherState) (pub : List ToastMsg) : Prop :=
  st.displayLog ++ st.messageQueue = pub
  ∧ st.boxes.length ≤ 1
  ∧ st.isShowingMessage = !st.boxes.isEmpty
  ∧ (st.boxes.isEmpty = true → st.messageQueue = [])

theorem dispatchInv_init : DispatchInv initDispatcher [] := by
  refine ⟨rfl, by simp [initDispatcher], by simp [initDispatcher], fun _ => rfl⟩

theorem dispatchInv_publish (st : DispatcherState) (pub : List ToastMsg)
    (m : ToastMsg) (h : DispatchInv st pub) :
    DispatchInv (notifyUser true st m) (pub ++ [m]) := by
  obtain ⟨h1, h2, h3, h4⟩ := h
  unfold notifyUser
  cases hshow : st.isShowingMessage with
  | true =>
      simp only [Bool.not_true, Bool.false_eq_true, if_false, hshow, if_true]
      refine ⟨?_, h2, ?_, ?_⟩
      · simp [← h1, List.append_assoc]
      · exact hshow ▸ h3
      · intro hempty
        rw [hempty] at h3
        simp [hshow] at h3
  | false =>
      have hboxes : st.boxes.isEmpty = true := by
        rw [hshow] at h3
        cases hbe : st.boxes.isEmpty
        · rw [hbe] at h3; simp at h3
        · rfl
      have hqempty : st.messageQueue = [] := h4 hboxes
      have hbnil : st.boxes = [] := by
        cases hb : st.boxes
        · rfl
        · rw [hb] at hboxes; simp at hboxes
      simp only [Bool.not_true, Bool.false_eq_true, if_false, hshow, hqempty,
        showNextMessage, List.nil_append]
      refine ⟨?_, ?_, ?_, ?_⟩
      · simp [← h1, hqempty]
      · simp [hbnil]
      · simp [hbnil]
      · intro hempty
        simp [hbnil] at hempty

theorem dispatchInv_timer (st : DispatcherState) (pub : List ToastMsg)
    (h : DispatchInv st pub) : DispatchInv (toastTimerDone st) pub := by
  obtain ⟨h1, h2, h3, h4⟩ := h
  unfold toastTimerDone
  cases hb : st.boxes with
  | nil =>
      show DispatchInv st pub
      exact ⟨h1, h2, h3, h4⟩
  | cons b bs =>
      have hbs : bs = [] := by
        rw [hb] at h2
        simpa using h2
      cases hq : st.messageQueue with
      | nil =>
          simp only [showNextMessage, hq]
          refine ⟨by simpa [hq] using h1, by simp [hbs], by simp [hbs], fun _ => rfl⟩
      | cons m rest =>
          simp only [showNextMessage, hq]
          refine ⟨?_, by simp [hbs], by simp [hbs], ?_⟩
          · rw [← h1, hq]
            simp
          · intro hempty
            simp [hbs] at hempty

theorem dispatchInv_runFrom (t : List DispatchAction) :
    ∀ (st : DispatcherState) (pub : List ToastMsg), DispatchInv st pub →
      DispatchInv (runDispatchFrom st t) (pub ++ publishedOf t) := by
  induction t with
  | nil => intro st pub h; simpa [runDispatchFrom, publishedOf] using h
  | cons a t ih =>
      intro st pub h
      cases a with
      | publish m =>
          have h' := dispatchInv_publish st pub m h
          have := ih (notifyUser true st m) (pub ++ [m]) h'
          simpa [runDispatchFrom, publishedOf, dispatchStep,
            List.append_assoc] using this
      | timerDone =>
          have h' := dispatchInv_timer st pub h
          have := ih (toastTimerDone st) pub h'
          simpa [runDispatchFrom, publishedOf, dispatchStep] using this

theorem dispatchInv_run (t : List DispatchAction) :
    DispatchInv (runDispatch t) (publishedOf t) := by
  have := dispatchInv_runFrom t initDispatcher [] dispatchInv_init
  simpa [runDispatch] using this

theorem dispatch_drain :
    ∀ (n : Nat) (st : DispatcherState) (pub : List ToastMsg),
      DispatchInv st pub →
      st.messageQueue.length + st.boxes.length ≤ n →
      (applyTimers n st).displayLog = pub
        ∧ (applyTimers n st).messageQueue = []
        ∧ (applyTimers n st).boxes = [] := by
  intro n
  induction n with
  | zero =>
      intro st pub h hle
      obtain ⟨h1, _, _, _⟩ := h
      have hq : st.messageQueue = [] := by
        cases hqe : st.messageQueue
        · rfl
        · rw [hqe] at hle; simp at hle
      have hb : st.boxes = [] := by
        cases hbe : st.boxes
        · rfl
        · rw [hbe] at hle; simp at hle
      rw [hq, List.append_nil] at h1
      exact ⟨h1, hq, hb⟩
  | succ n ih =>
      intro st pub h hle
      obtain ⟨h1, h2, h3, h4⟩ := h
      cases hb : st.boxes with
      | nil =>
          have hq : st.messageQueue = [] := h4 (by simp [hb])
          have hid : toastTimerDone st = st := by
            unfold toastTimerDone
            rw [hb]
          show (applyTimers n (toastTimerDone st)).displayLog = pub
            ∧ (applyTimers n (toastTimerDone st)).messageQueue = []
            ∧ (applyTimers n (toastTimerDone st)).boxes = []
          rw [hid]
          exact ih st pub ⟨h1, h2, h3, h4⟩ (by simp [hq, hb])
      | cons b bs =>
          have hbs : bs = [] := by
            rw [hb] at h2
            simpa using h2
          have hstep : toastTimerDone st
              = showNextMessage { st with boxes := bs, isShowingMessage := false } := by
            unfold toastTimerDone
            rw [hb]
          have hinv' : DispatchInv (toastTimerDone st) pub :=
            dispatchInv_timer st pub ⟨h1, h2, h3, h4⟩
          have hle' : (toastTimerDone st).messageQueue.length
              + (toastTimerDone st).boxes.length ≤ n := by
            rw [hstep]
            cases hq : st.messageQueue with
            | nil => simp [showNextMessage, hbs]
            | cons m rest =>
                simp only [showNextMessage, hq]
                rw [hq, hb] at hle
                simp only [List.length_cons, hbs] at hle ⊢
                simp only [List.length_append, List.length_nil,
                  List.length_cons]
                omega
          show (applyTimers n (toastTimerDone st)).displayLog = pub
            ∧ (applyTimers n (toastTimerDone st)).messageQueue = []
            ∧ (applyTimers n (toastTimerDone st)).boxes = []
          exact ih (toastTimerDone st) pub hinv' hle'

theorem clientSync_store (net : Nat → FetchResult) (now : Nat)
    (s : Store) (hwf : wfStore s) :
    (clientSyncOfflineRequests net now s).store
      = ⟨s.nextId, s.entries.filterMap (replayResidue (swReplayDecide net now))⟩ := by
  obtain ⟨nid, entries⟩ := s
  have hnd : ((([] : List PendingRequest) ++ entries).map (fun e => e.id)).Nodup := by
    simpa using hwf.1
  have := foldl_stepRetry (clientReplayDecide net now) entries [] nid hnd
  simp only [List.nil_append] at this
  unfold clientSyncOfflineRequests getAllRequests
  rw [clientLoop_store, this]
  congr 1
  apply List.filterMap_congr
  intro r _
  simp [replayResidue, clientReplayDecide_eq_swReplayDecide]

/-! Concrete sample values used to evaluate the definitions. -/

def sampleData : ReqData :=
  { url := "/orders", method := "POST",
    headers := [("content-type", "application/json")],
    body := "x", contentType := "application/json",
    timestamp := 0, retryCount := 0 }

def sampleGet : RequestInfo :=
  { url := "/data", method := "GET", headers := [], body := "" }

def resp200 : Response := { status := 200, statusText := "OK", body := "d" }

def resp404 : Response := { status := 404, statusText := "Not Found", body := "m" }

def resp500 : Response := { status := 500, statusText := "", body := "e" }

def sampleCache : CacheStore := [(reqKey sampleGet, resp200)]

theorem swReplayDecide_none_of_dead (net : Nat → FetchResult) (now : Nat)
    (r : PendingRequest) (h : aliveB now r = false) :
    swReplayDecide net now r = none := by
  rw [swReplayDecide_of_aliveB, h]
  rfl

theorem swReplayDecide_of_fail (net : Nat → FetchResult) (now : Nat)
    (r : PendingRequest) (h1 : aliveB now r = true)
    (h2 : fetchOk (net r.id) = false) :
    swReplayDecide net now r = some (r.retryCount + 1) := by
  rw [swReplayDecide_of_aliveB, h1, h2]
  rfl

theorem swReplayDecide_some_bound (net : Nat → FetchResult) (now : Nat)
    (r : PendingRequest) (n : Nat) (h : swReplayDecide net now r = some n) :
    n = r.retryCount + 1 ∧ r.retryCount < MAX_RETRIES := by
  rw [swReplayDecide_of_aliveB] at h
  cases ha : aliveB now r with
  | false => rw [ha] at h; simp at h
  | true =>
      rw [ha] at h
      cases hk : fetchOk (net r.id) with
      | true => rw [hk] at h; simp at h
      | false =>
          rw [hk] at h
          simp at h
          refine ⟨by omega, ?_⟩
          have := ha
          simp only [aliveB, Bool.and_eq_true, decide_eq_true_eq] at this
          exact this.2

theorem residue_mem_inv (dec : PendingRequest → Option Nat)
    (l : List PendingRequest) (e : PendingRequest)
    (h : e ∈ l.filterMap (replayResidue dec)) :
    ∃ a ∈ l, ∃ n, dec a = some n ∧ e = { a with retryCount := n } := by
  obtain ⟨a, ha, hres⟩ := List.mem_filterMap.mp h
  unfold replayResidue at hres
  cases hd : dec a with
  | none => rw [hd] at hres; simp at hres
  | some n =>
      rw [hd] at hres
      simp only [Option.map_some', Option.some.injEq] at hres
      exact ⟨a, ha, n, hd, hres.symm⟩

theorem residue_ids_sublist (dec : PendingRequest → Option Nat) :
    ∀ l : List PendingRequest,
      ((l.filterMap (replayResidue dec)).map (fun e => PendingRequest.id e)).Sublist
        (l.map (fun e => PendingRequest.id e)) := by
  intro l
  induction l with
  | nil => simp
  | cons r rest ih =>
      cases hd : dec r with
      | none =>
          simp only [List.filterMap_cons, replayResidue, hd, List.map_cons]
          exact ih.cons _
      | some n =>
          simp only [List.filterMap_cons, replayResidue, hd, Option.map_some',
            List.map_cons]
          exact ih.cons₂ _

/-! Claims. -/

/-- Claim C1 counterexample: with one pass already active
(`activePasses = 1`), delivering a SYNC_OFFLINE_REQUESTS trigger to the
service worker message listener (or to the client message listener) is
not a no-op: the listener consults no pass-active state and starts a
second pass, so two passes are then in flight. -/
theorem trigger_mid_pass_starts_second_pass :
    swOnMessage 1 (some .syncRequestsMsg) = 2
      ∧ swMessageStartsPass (some .syncRequestsMsg) = true
      ∧ clientOnMessage 1 (some .syncRequestsMsg) = 2
      ∧ clientMessageStartsPass (some .syncRequestsMsg) = true :=
  ⟨rfl, rfl, rfl, rfl⟩

/-- Claim C1 (amended): the message listeners have no admission gate: a
SYNC_OFFLINE_REQUESTS trigger starts a pass whatever the number of
passes already in flight (so triggers delivered mid-pass produce
concurrent passes), while any other delivery starts none. -/
theorem trigger_always_starts_pass (n : Nat) :
    swOnMessage n (some .syncRequestsMsg) = n + 1
      ∧ swOnMessage n none = n
      ∧ swOnMessage n (some .unknown) = n
      ∧ clientOnMessage n (some .syncRequestsMsg) = n + 1
      ∧ clientOnMessage n (some .unknown) = n :=
  ⟨rfl, rfl, rfl, rfl, rfl⟩

/-- Claim C2 evaluated at the failing input: the GET/HEAD fetch path
stores a status-404 response into the cache (the source calls `cachePut`
on every resolved fetch, with no status condition), and the refresh
phase overwrites a previously cached 200 entry with a status-500
response; `respOk` is false for both statuses, so responses outside the
success range are stored. -/
theorem cache_stores_non_success_status :
    (handleReadRequest sampleGet (.resp resp404) []).cache
        = [(reqKey sampleGet, resp404)]
      ∧ respOk resp404.status = false
      ∧ (refreshCache (fun _ => .resp resp500) sampleCache).1
        = [(reqKey sampleGet, resp500)]
      ∧ respOk resp500.status = false := by
  refine ⟨by decide, by decide, by decide, by decide⟩

/-- Claim C5: for a mutating intercepted operation whose network call
fails, a full snapshot (method, URL, headers, body, content type derived
from the headers, current time, retryCount 0) is appended to the durable
queue, an OFFLINE_REQUEST_SAVED (OperationQueued) notification is
emitted, and the synthesized status-202 response carrying the
machine-readable offline marker is returned; if the snapshot or save
itself fails, the synthesized status-500 response is returned instead
and the store is untouched. -/
theorem mutating_failure_queued_or_500 (req : RequestInfo) (now : Nat)
    (s : Store) :
    ((handleMutatingRequest req .netError .ok now s).response = queued202
      ∧ (handleMutatingRequest req .netError .ok now s).store.entries
          = s.entries
            ++ [mkEntry s.nextId
                 { url := req.url, method := req.method,
                   headers := req.headers, body := req.body,
                   contentType := (headerGet req.headers "Content-Type").getD "",
                   timestamp := now, retryCount := 0 }]
      ∧ (handleMutatingRequest req .netError .ok now s).msgs
          = [.offlineRequestSaved req.url req.method])
    ∧ ((handleMutatingRequest req .netError .storageError now s).response
          = saveFailed500
      ∧ (handleMutatingRequest req .netError .storageError now s).store = s
      ∧ (handleMutatingRequest req .netError .storageError now s).msgs = [])
    ∧ queued202.status = 202
    ∧ queued202.body
        = "\x7b\"offline\":true,\"message\":\"Request saved for later sync\"\x7d"
    ∧ saveFailed500.status = 500 :=
  ⟨⟨rfl, rfl, rfl⟩, ⟨rfl, rfl, rfl⟩, rfl, rfl, rfl⟩

/-- Claim C6: for a GET/HEAD operation whose network call fails, a cached
entry for the key is served together with an OFFLINE_USAGE (CacheServed)
notification; with no cached entry the synthesized status-503 response is
returned with no notification — the caller always receives a response. -/
theorem read_failure_cache_or_503 (req : RequestInfo) (cache : CacheStore) :
    (∀ c, cacheMatch cache (reqKey req) = some c →
       handleReadRequest req .netError cache
         = { response := c, cache := cache, msgs := [.offlineUsage] })
    ∧ (cacheMatch cache (reqKey req) = none →
       handleReadRequest req .netError cache
           = { response := offline503, cache := cache, msgs := [] }
         ∧ offline503.status = 503) := by
  constructor
  · intro c hc
    unfold handleReadRequest
    rw [hc]
  · intro hc
    unfold handleReadRequest
    rw [hc]
    exact ⟨rfl, rfl⟩

/-- Witness for C6 at concrete inputs: a one-entry cache serves the
cached response; the empty cache yields the 503. -/
theorem read_failure_cache_or_503_witness :
    cacheMatch sampleCache (reqKey sampleGet) = some resp200
      ∧ handleReadRequest sampleGet .netError sampleCache
          = { response := resp200, cache := sampleCache, msgs := [.offlineUsage] }
      ∧ cacheMatch ([] : CacheStore) (reqKey sampleGet) = none
      ∧ handleReadRequest sampleGet .netError []
          = { response := offline503, cache := [], msgs := [] } :=
  ⟨by decide,
   (read_failure_cache_or_503 sampleGet sampleCache).1 resp200 (by decide),
   by decide,
   ((read_failure_cache_or_503 sampleGet []).2 (by decide)).1⟩

/-- Claim C10: calling `updateRequestRetryCount` with an id that has no
record in the durable store resolves with the store entirely unchanged:
no record is created and no existing record is modified. -/
theorem updateRetryCount_absent_id_frame (s : Store) (rid n : Nat)
    (habs : ∀ e ∈ s.entries, e.id ≠ rid) :
    updateRequestRetryCount s rid n = s := by
  unfold updateRequestRetryCount
  have hfind : s.entries.find? (fun e => e.id == rid) = none := by
    apply List.find?_eq_none.mpr
    intro e he
    simpa using habs e he
  rw [hfind]

def sampleA : ReqData :=
  { url := "/a", method := "POST", headers := [], body := "1",
    contentType := "", timestamp := 0, retryCount := 0 }

def sampleB : ReqData :=
  { url := "/b", method := "PUT", headers := [], body := "2",
    contentType := "", timestamp := 0, retryCount := 0 }

def sampleC : ReqData :=
  { url := "/c", method := "DELETE", headers := [], body := "3",
    contentType := "", timestamp := 0, retryCount := 0 }

/-- A queue record that has reached the retry limit. -/
def sampleExhausted : ReqData :=
  { url := "/old", method := "POST", headers := [], body := "",
    contentType := "", timestamp := 0, retryCount := 5 }

/-- A queue record one retry short of the limit (Scenario 1). -/
def samplePenultimate : ReqData :=
  { url := "/orders", method := "POST", headers := [], body := "",
    contentType := "", timestamp := 0, retryCount := 4 }

/-- Claim C3: replay order equals enqueue order.  `saveRequest` appends
the record under the next monotonically-increasing key; the network
calls a replay pass issues are exactly the non-expired entries of the
`getAllRequests` snapshot, in snapshot (key) order; in particular three
operations enqueued in order a, b, c and all fresh at replay time are
re-issued over the network in order a, b, c. -/
theorem replay_order_is_fifo :
    (∀ (s : Store) (d : ReqData),
       getAllRequests (saveRequest s d)
           = getAllRequests s ++ [mkEntry s.nextId d]
         ∧ (saveRequest s d).nextId = s.nextId + 1)
    ∧ (∀ (net : Nat → FetchResult) (now : Nat) (s : Store),
       (syncStoredPosts net now s).calls
         = ((getAllRequests s).filter (aliveB now)).map
             (fun r => (r.method, r.url)))
    ∧ (∀ (net : Nat → FetchResult) (now : Nat) (a b c : ReqData),
       now - a.timestamp ≤ MAX_AGE → a.retryCount < MAX_RETRIES →
       now - b.timestamp ≤ MAX_AGE → b.retryCount < MAX_RETRIES →
       now - c.timestamp ≤ MAX_AGE → c.retryCount < MAX_RETRIES →
       (syncStoredPosts net now
          (saveRequest (saveRequest (saveRequest emptyStore a) b) c)).calls
         = [(a.method, a.url), (b.method, b.url), (c.method, c.url)]) := by
  refine ⟨fun s d => ⟨rfl, rfl⟩, ?_, ?_⟩
  · intro net now s
    exact swLoop_calls net now (getAllRequests s) s
  · intro net now a b c ha1 ha2 hb1 hb2 hc1 hc2
    have h := swLoop_calls net now
      (getAllRequests (saveRequest (saveRequest (saveRequest emptyStore a) b) c))
      (saveRequest (saveRequest (saveRequest emptyStore a) b) c)
    have hA : aliveB now (mkEntry 0 a) = true := by
      simp only [aliveB, mkEntry, Bool.and_eq_true, decide_eq_true_eq]
      exact ⟨ha1, ha2⟩
    have hB : aliveB now (mkEntry 1 b) = true := by
      simp only [aliveB, mkEntry, Bool.and_eq_true, decide_eq_true_eq]
      exact ⟨hb1, hb2⟩
    have hC : aliveB now (mkEntry 2 c) = true := by
      simp only [aliveB, mkEntry, Bool.and_eq_true, decide_eq_true_eq]
      exact ⟨hc1, hc2⟩
    show (syncStoredPostsLoop net now _ _).calls = _
    rw [h]
    show ([mkEntry 0 a, mkEntry 1 b, mkEntry 2 c].filter (aliveB now)).map
        (fun r => (r.method, r.url)) = _
    rw [List.filter_cons, List.filter_cons, List.filter_cons]
    rw [hA, hB, hC]
    rfl

/-- Witness for C3 at concrete inputs: three fresh operations enqueued
in order are re-fetched in the same order. -/
theorem replay_order_is_fifo_witness :
    (0 - sampleA.timestamp ≤ MAX_AGE ∧ sampleA.retryCount < MAX_RETRIES)
      ∧ (syncStoredPosts (fun _ => .resp resp200) 0
           (saveRequest (saveRequest (saveRequest emptyStore sampleA) sampleB)
             sampleC)).calls
          = [("POST", "/a"), ("PUT", "/b"), ("DELETE", "/c")] :=
  ⟨⟨by decide, by decide⟩,
   replay_order_is_fifo.2.2 (fun _ => .resp resp200) 0 sampleA sampleB sampleC
     (by decide) (by decide) (by decide) (by decide) (by decide) (by decide)⟩

/-- Claim C4: an entry whose age exceeds MAX_AGE or whose retry count
has reached MAX_RETRIES is removed by the next replay pass without any
network call and without any notification: the entry fails the
liveness check, the pass calls and notifications range exactly over the
entries that pass it, and no entry with the expired id survives either
replay variant.  The second conjunct is Scenario 1: a pass over a
retryCount-4 entry whose replay fails leaves it at retryCount 5 with one
network call, and the following pass deletes it with no network call,
no notification and an empty final queue. -/
theorem expired_entries_dropped_silently :
    (∀ (net : Nat → FetchResult) (now : Nat) (s : Store), wfStore s →
      ∀ r ∈ getAllRequests s,
        (MAX_AGE < now - r.timestamp ∨ MAX_RETRIES ≤ r.retryCount) →
        aliveB now r = false
        ∧ (∀ e ∈ (syncStoredPosts net now s).store.entries, e.id ≠ r.id)
        ∧ (∀ e ∈ (clientSyncOfflineRequests net now s).store.entries, e.id ≠ r.id)
        ∧ (syncStoredPosts net now s).calls
            = ((getAllRequests s).filter (aliveB now)).map
                (fun x => (x.method, x.url))
        ∧ (syncStoredPosts net now s).events
            = ((getAllRequests s).filter
                (fun x => aliveB now x && fetchOk (net x.id))).map
                (fun x => SwMsg.offlineRequestSynced x.url x.method)
        ∧ (clientSyncOfflineRequests net now s).calls
            = ((getAllRequests s).filter (aliveB now)).map
                (fun x => (x.method, x.url)))
    ∧ ((syncStoredPosts (fun _ => .netError) 0
          (saveRequest emptyStore samplePenultimate)).store.entries
         = [{ mkEntry 0 samplePenultimate with retryCount := 5 }]
      ∧ (syncStoredPosts (fun _ => .netError) 0
           (saveRequest emptyStore samplePenultimate)).calls
          = [("POST", "/orders")]
      ∧ (syncStoredPosts (fun _ => .netError) 0
           (syncStoredPosts (fun _ => .netError) 0
             (saveRequest emptyStore samplePenultimate)).store).calls = []
      ∧ (syncStoredPosts (fun _ => .netError) 0
           (syncStoredPosts (fun _ => .netError) 0
             (saveRequest emptyStore samplePenultimate)).store).events = []
      ∧ (syncStoredPosts (fun _ => .netError) 0
           (syncStoredPosts (fun _ => .netError) 0
             (saveRequest emptyStore samplePenultimate)).store).store.entries
          = []) := by
  constructor
  · intro net now s hwf r hr hdead
    have hdeadB : aliveB now r = false := by
      simp only [aliveB, Bool.and_eq_false_iff, decide_eq_false_iff_not]
      rcases hdead with h | h
      · left; omega
      · right; omega
    have hnone : swReplayDecide net now r = none :=
      swReplayDecide_none_of_dead net now r hdeadB
    have hgone : ∀ (entries' : List PendingRequest),
        entries' = s.entries.filterMap (replayResidue (swReplayDecide net now)) →
        ∀ e ∈ entries', e.id ≠ r.id := by
      intro entries' heq e he hid
      rw [heq] at he
      obtain ⟨a, ha, n, hdec, hemk⟩ :=
        residue_mem_inv (swReplayDecide net now) s.entries e he
      have haid : a.id = r.id := by
        rw [← hid, hemk]
      have : a = r := List.inj_on_of_nodup_map hwf.1 ha hr haid
      rw [this, hnone] at hdec
      exact Option.noConfusion hdec
    refine ⟨hdeadB, ?_, ?_, swLoop_calls net now (getAllRequests s) s,
      swLoop_events net now (getAllRequests s) s,
      clientLoop_calls net now (getAllRequests s) s⟩
    · intro e he
      rw [syncStoredPosts_store net now s hwf] at he
      exact hgone _ rfl e he
    · intro e he
      rw [clientSync_store net now s hwf] at he
      exact hgone _ rfl e he
  · exact ⟨by decide, by decide, by decide, by decide, by decide⟩

/-- Witness for C4 at a concrete input: a one-entry store whose entry is
at the retry limit; the pass makes no network call and removes it. -/
theorem expired_entries_dropped_silently_witness :
    wfStore (saveRequest emptyStore sampleExhausted)
      ∧ MAX_RETRIES ≤ (mkEntry 0 sampleExhausted).retryCount
      ∧ aliveB 0 (mkEntry 0 sampleExhausted) = false
      ∧ (syncStoredPosts (fun _ => .netError) 0
           (saveRequest emptyStore sampleExhausted)).calls
          = ((getAllRequests (saveRequest emptyStore sampleExhausted)).filter
              (aliveB 0)).map (fun x => (x.method, x.url))
      ∧ (syncStoredPosts (fun _ => .netError) 0
           (saveRequest emptyStore sampleExhausted)).calls = [] :=
  ⟨by decide, by decide,
   (expired_entries_dropped_silently.1 (fun _ => .netError) 0
      (saveRequest emptyStore sampleExhausted) (by decide)
      (mkEntry 0 sampleExhausted) (by decide) (by decide)).1,
   (expired_entries_dropped_silently.1 (fun _ => .netError) 0
      (saveRequest emptyStore sampleExhausted) (by decide)
      (mkEntry 0 sampleExhausted) (by decide) (by decide)).2.2.2.1,
   by decide⟩

/-- Claim C7 counterexample: a replay pass of the service worker over a
single fresh entry whose re-issued call fails (status 500, non-ok) does
issue the call and bumps the retry count, but emits no notification at
all — contradicting the claim that a SyncFailed notification is emitted
for every failing entry. -/
theorem sw_replay_failure_emits_no_event :
    (syncStoredPosts (fun _ => .resp resp500) 0
        (saveRequest emptyStore sampleData)).calls = [("POST", "/orders")]
      ∧ respOk resp500.status = false
      ∧ (syncStoredPosts (fun _ => .resp resp500) 0
          (saveRequest emptyStore sampleData)).store.entries
         = [{ mkEntry 0 sampleData with retryCount := 1 }]
      ∧ (syncStoredPosts (fun _ => .resp resp500) 0
          (saveRequest emptyStore sampleData)).events = [] :=
  ⟨by decide, by decide, by decide, by decide⟩

/-- Claim C7 (amended): for every entry whose re-issued network call
fails (network error or non-ok response), both replay variants update
the entry to retryCount + 1 and continue to the next entry (the calls
and notifications of the pass range over all live entries); the
client-side replay emits an error (SyncFailed) toast for the entry,
while the service worker replay emits no failure notification (its
notifications are exactly the success ones). -/
theorem replay_failure_increments_and_continues (net : Nat → FetchResult)
    (now : Nat) (s : Store) (hwf : wfStore s) (r : PendingRequest)
    (hr : r ∈ getAllRequests s) (halive : aliveB now r = true)
    (hfail : fetchOk (net r.id) = false) :
    ({ r with retryCount := r.retryCount + 1 }
        ∈ (syncStoredPosts net now s).store.entries)
      ∧ ({ r with retryCount := r.retryCount + 1 }
          ∈ (clientSyncOfflineRequests net now s).store.entries)
      ∧ ClientNote.syncError r.method r.url
          ∈ (clientSyncOfflineRequests net now s).events
      ∧ (syncStoredPosts net now s).calls
          = ((getAllRequests s).filter (aliveB now)).map
              (fun x => (x.method, x.url))
      ∧ (syncStoredPosts net now s).events
          = ((getAllRequests s).filter
              (fun x => aliveB now x && fetchOk (net x.id))).map
              (fun x => SwMsg.offlineRequestSynced x.url x.method) := by
  have hdec : swReplayDecide net now r = some (r.retryCount + 1) :=
    swReplayDecide_of_fail net now r halive hfail
  have hmem : { r with retryCount := r.retryCount + 1 }
      ∈ s.entries.filterMap (replayResidue (swReplayDecide net now)) := by
    apply List.mem_filterMap.mpr
    exact ⟨r, hr, by simp [replayResidue, hdec]⟩
  refine ⟨?_, ?_, ?_, swLoop_calls net now (getAllRequests s) s,
    swLoop_events net now (getAllRequests s) s⟩
  · rw [syncStoredPosts_store net now s hwf]
    exact hmem
  · rw [clientSync_store net now s hwf]
    exact hmem
  · rw [show (clientSyncOfflineRequests net now s).events
        = ((getAllRequests s).filter (aliveB now)).map
            (fun x => if fetchOk (net x.id)
                      then ClientNote.syncSuccess x.method x.url
                      else ClientNote.syncError x.method x.url)
      from clientLoop_events net now (getAllRequests s) s]
    apply List.mem_map.mpr
    refine ⟨r, List.mem_filter.mpr ⟨hr, halive⟩, ?_⟩
    rw [hfail]
    rfl

/-- Witness for C7 (amended) at a concrete input: the single failing
entry is bumped to retryCount 1 in both variants and the client emits
the error toast. -/
theorem replay_failure_increments_and_continues_witness :
    wfStore (saveRequest emptyStore sampleData)
      ∧ aliveB 0 (mkEntry 0 sampleData) = true
      ∧ fetchOk ((fun _ => FetchResult.resp resp500) (mkEntry 0 sampleData).id)
          = false
      ∧ ({ mkEntry 0 sampleData with retryCount := 1 }
          ∈ (syncStoredPosts (fun _ => .resp resp500) 0
              (saveRequest emptyStore sampleData)).store.entries)
      ∧ ClientNote.syncError "POST" "/orders"
          ∈ (clientSyncOfflineRequests (fun _ => .resp resp500) 0
              (saveRequest emptyStore sampleData)).events :=
  ⟨by decide, by decide, by decide,
   (replay_failure_increments_and_continues (fun _ => .resp resp500) 0
      (saveRequest emptyStore sampleData) (by decide) (mkEntry 0 sampleData)
      (by decide) (by decide) (by decide)).1,
   (replay_failure_increments_and_continues (fun _ => .resp resp500) 0
      (saveRequest emptyStore sampleData) (by decide) (mkEntry 0 sampleData)
      (by decide) (by decide) (by decide)).2.2.1⟩

/-- The operations the system itself performs on the durable queue: the
fetch handler enqueue of a fresh snapshot (retryCount 0, timestamp now),
a service worker replay pass, and a client replay pass (deletions and
retry updates happen only inside the passes). -/
inductive SysOp
  | enqueueSnapshot (req : RequestInfo) (now : Nat)
  | swPass (net : Nat → FetchResult) (now : Nat)
  | clientPass (net : Nat → FetchResult) (now : Nat)

/-- Effect of a system operation on the durable queue. -/
def applySysOp : SysOp → Store → Store
  | .enqueueSnapshot req now, s => saveRequest s (buildSnapshot req now)
  | .swPass net now, s => (syncStoredPosts net now s).store
  | .clientPass net now, s => (clientSyncOfflineRequests net now s).store

theorem residue_store_invariants (net : Nat → FetchResult) (now : Nat)
    (s : Store) (hwf : wfStore s) :
    wfStore ⟨s.nextId,
        s.entries.filterMap (replayResidue (swReplayDecide net now))⟩
      ∧ retryBounded ⟨s.nextId,
          s.entries.filterMap (replayResidue (swReplayDecide net now))⟩
      ∧ ∀ e e', e ∈ s.entries →
          e' ∈ s.entries.filterMap (replayResidue (swReplayDecide net now)) →
          e'.id = e.id →
          e'.timestamp = e.timestamp ∧ e.retryCount ≤ e'.retryCount := by
  refine ⟨⟨?_, ?_⟩, ?_, ?_⟩
  · exact (residue_ids_sublist (swReplayDecide net now) s.entries).nodup hwf.1
  · intro e he
    obtain ⟨a, ha, n, hdec, hemk⟩ :=
      residue_mem_inv (swReplayDecide net now) s.entries e he
    have : a.id < s.nextId := hwf.2 a ha
    rw [hemk]
    exact this
  · intro e he
    obtain ⟨a, ha, n, hdec, hemk⟩ :=
      residue_mem_inv (swReplayDecide net now) s.entries e he
    obtain ⟨hn, hlt⟩ := swReplayDecide_some_bound net now a n hdec
    rw [hemk]
    show n ≤ MAX_RETRIES
    omega
  · intro e e' he he' hid
    obtain ⟨a, ha, n, hdec, hemk⟩ :=
      residue_mem_inv (swReplayDecide net now) s.entries e' he'
    have haid : a.id = e.id := by rw [← hid, hemk]
    have hae : a = e := List.inj_on_of_nodup_map hwf.1 ha he haid
    subst hae
    obtain ⟨hn, _⟩ := swReplayDecide_some_bound net now a n hdec
    rw [hemk]
    refine ⟨rfl, ?_⟩
    show a.retryCount ≤ n
    omega

/-- Claim C8: every system operation on the durable queue preserves its
invariants: the store stays well formed, the enqueue timestamp of a
surviving entry never changes, its retry count never decreases, and
no retry count exceeds MAX_RETRIES. -/
theorem queue_invariants_preserved (op : SysOp) (s : Store)
    (hwf : wfStore s) (hinv : retryBounded s) :
    wfStore (applySysOp op s)
      ∧ retryBounded (applySysOp op s)
      ∧ ∀ e e', e ∈ s.entries → e' ∈ (applySysOp op s).entries →
          e'.id = e.id →
          e'.timestamp = e.timestamp ∧ e.retryCount ≤ e'.retryCount := by
  cases op with
  | enqueueSnapshot req now =>
      refine ⟨⟨?_, ?_⟩, ?_, ?_⟩
      · show ((s.entries ++ [mkEntry s.nextId (buildSnapshot req now)]).map
            (fun e => e.id)).Nodup
        rw [List.map_append]
        apply List.Nodup.append hwf.1 (by simp)
        intro x hx hx'
        simp only [List.map_cons, List.map_nil, List.mem_singleton] at hx'
        obtain ⟨a, ha, haid⟩ := List.mem_map.mp hx
        have : a.id < s.nextId := hwf.2 a ha
        rw [haid] at this
        rw [hx'] at this
        exact absurd this (by simp [mkEntry])
      · intro e he
        show e.id < s.nextId + 1
        rcases List.mem_append.mp he with h | h
        · have := hwf.2 e h
          omega
        · simp only [List.mem_singleton] at h
          rw [h]
          show s.nextId < s.nextId + 1
          omega
      · intro e he
        rcases List.mem_append.mp he with h | h
        · exact hinv e h
        · simp only [List.mem_singleton] at h
          rw [h]
          show (0 : Nat) ≤ MAX_RETRIES
          exact Nat.zero_le _
      · intro e e' he he' hid
        rcases List.mem_append.mp he' with h | h
        · have : e' = e := List.inj_on_of_nodup_map hwf.1 h he hid
          rw [this]
          exact ⟨rfl, Nat.le_refl _⟩
        · simp only [List.mem_singleton] at h
          have hlt := hwf.2 e he
          rw [h] at hid
          rw [show (mkEntry s.nextId (buildSnapshot req now)).id = s.nextId
            from rfl] at hid
          omega
  | swPass net now =>
      have hchar : applySysOp (SysOp.swPass net now) s
          = ⟨s.nextId,
             s.entries.filterMap (replayResidue (swReplayDecide net now))⟩ :=
        syncStoredPosts_store net now s hwf
      rw [hchar]
      exact residue_store_invariants net now s hwf
  | clientPass net now =>
      have hchar : applySysOp (SysOp.clientPass net now) s
          = ⟨s.nextId,
             s.entries.filterMap (replayResidue (swReplayDecide net now))⟩ :=
        clientSync_store net now s hwf
      rw [hchar]
      exact residue_store_invariants net now s hwf

/-- Witness for C8 at concrete inputs: a failing replay pass over a
one-entry queue preserves well-formedness and the retry bound. -/
theorem queue_invariants_preserved_witness :
    wfStore (saveRequest emptyStore sampleData)
      ∧ retryBounded (saveRequest emptyStore sampleData)
      ∧ wfStore (applySysOp (SysOp.swPass (fun _ => .netError) 0)
          (saveRequest emptyStore sampleData))
      ∧ retryBounded (applySysOp (SysOp.swPass (fun _ => .netError) 0)
          (saveRequest emptyStore sampleData)) :=
  ⟨by decide, by decide,
   (queue_invariants_preserved (SysOp.swPass (fun _ => .netError) 0)
      (saveRequest emptyStore sampleData) (by decide) (by decide)).1,
   (queue_invariants_preserved (SysOp.swPass (fun _ => .netError) 0)
      (saveRequest emptyStore sampleData) (by decide) (by decide)).2.1⟩

def sampleToast : ToastMsg := { message := "m", kind := "info" }

/-- Claim C9: with notifications enabled, every published notification is
displayed exactly once, in publish order, and never more than one toast
is on screen: after any interleaving of publishes and display
completions, the display log followed by the pending queue is exactly
the publish sequence (so display order matches publish order with no
duplicate, drop or reorder), and once the remaining display durations
elapse the display log is exactly the publish sequence; a publish while
idle begins display immediately, and a publish while busy only appends
to the pending queue — the next display begins only at the completion
of the current one. -/
theorem dispatcher_exactly_once_in_order :
    (∀ t : List DispatchAction,
       (runDispatch t).displayLog ++ (runDispatch t).messageQueue
           = publishedOf t
         ∧ (runDispatch t).boxes.length ≤ 1
         ∧ (applyTimers ((runDispatch t).messageQueue.length
              + (runDispatch t).boxes.length) (runDispatch t)).displayLog
             = publishedOf t)
    ∧ (∀ (st : DispatcherState) (m : ToastMsg),
       st.isShowingMessage = false → st.messageQueue = [] →
         (notifyUser true st m).displayLog = st.displayLog ++ [m]
           ∧ (notifyUser true st m).boxes = st.boxes ++ [m]
           ∧ (notifyUser true st m).isShowingMessage = true)
    ∧ (∀ (st : DispatcherState) (m : ToastMsg),
       st.isShowingMessage = true →
         (notifyUser true st m).messageQueue = st.messageQueue ++ [m]
           ∧ (notifyUser true st m).displayLog = st.displayLog
           ∧ (notifyUser true st m).boxes = st.boxes) := by
  refine ⟨?_, ?_, ?_⟩
  · intro t
    obtain ⟨h1, h2, h3, h4⟩ := dispatchInv_run t
    refine ⟨h1, h2, ?_⟩
    exact (dispatch_drain _ (runDispatch t) (publishedOf t)
      ⟨h1, h2, h3, h4⟩ (Nat.le_refl _)).1
  · intro st m hshow hq
    simp [notifyUser, hshow, hq, showNextMessage]
  · intro st m hshow
    simp [notifyUser, hshow]

/-- Witness for C9 at a concrete input: publishing to the idle initial
dispatcher begins display immediately. -/
theorem dispatcher_exactly_once_in_order_witness :
    initDispatcher.isShowingMessage = false
      ∧ initDispatcher.messageQueue = []
      ∧ (notifyUser true initDispatcher sampleToast).displayLog
          = initDispatcher.displayLog ++ [sampleToast] :=
  ⟨rfl, rfl,
   (dispatcher_exactly_once_in_order.2.1 initDispatcher sampleToast rfl rfl).1⟩

/-- Witness for C10 at a concrete input: a one-entry store is untouched
by an update aimed at an absent id. -/
theorem updateRetryCount_absent_id_frame_witness :
    (∀ e ∈ (saveRequest emptyStore sampleData).entries, e.id ≠ 7)
      ∧ updateRequestRetryCount (saveRequest emptyStore sampleData) 7 3
          = saveRequest emptyStore sampleData :=
  ⟨by decide,
   updateRetryCount_absent_id_frame (saveRequest emptyStore sampleData) 7 3
     (by decide)⟩

end SmartCache
